import Mathlib

/-!
Verification of `verify-port-accessibility.py` against its specification.

The script probes TCP reachability from a set of source hosts to a set of
destination (host, port) pairs.  Python strings are modelled as `String`
(with the character-level work done on `List Char`), Python integers as
`Int`, Python `None` via `Option`, raised exceptions via `Except`, and the
external collaborators (the remote-execution transport and the local
subprocess invocation) as oracle functions bundled in a `ProbeEnv`.
-/

/-- The characters stripped by Python's `str.rstrip()` / `str.lstrip()`. -/
def pyIsSpace (c : Char) : Bool :=
  c == ' ' || c == '\t' || c == '\n' || c == '\r' || c == '\x0b' || c == '\x0c'

/-- Python `str.rstrip()` on a character list. -/
def pyRstripL (l : List Char) : List Char :=
  (l.reverse.dropWhile pyIsSpace).reverse

/-- Python `str.lstrip()` on a character list. -/
def pyLstripL (l : List Char) : List Char :=
  l.dropWhile pyIsSpace

/-- Line iteration as `StringIO` performs it: maximal chunks ending in a
newline (the newline is kept, as in Python), with a final chunk lacking a
newline yielded as well; an empty trailing chunk is not yielded. -/
def splitLinesAux : List Char → List Char → List (List Char)
  | [], acc => if acc.isEmpty then [] else [acc.reverse]
  | c :: rest, acc =>
    if c == '\n' then (acc.reverse ++ ['\n']) :: splitLinesAux rest []
    else splitLinesAux rest (c :: acc)

/-- All lines of a text, in the sense of Python file/`StringIO` iteration. -/
def pySplitLinesL (t : List Char) : List (List Char) :=
  splitLinesAux t []

/-- Python's substring containment test `sub in s` on character lists. -/
def listHasInfix (sub : List Char) : List Char → Bool
  | [] => sub.isEmpty
  | c :: rest => sub.isPrefixOf (c :: rest) || listHasInfix sub rest

/-- Concatenation of a list of strings (models writing lines in sequence). -/
def joinStrings : List String → String
  | [] => ""
  | s :: rest => s ++ joinStrings rest

/-- Replacement of every newline character by the two-character sequence
backslash-n, i.e. Python's `message.replace("\n", "\\n")`. -/
def escape_newlines (s : String) : String :=
  String.mk (s.data.flatMap (fun c => if c = '\n' then ['\\', 'n'] else [c]))

/-- The noise fragment excluded by `stdout_lines_without_noise`. -/
def noise_marker : List Char := "id: cannot find".data

/-- Source `stdout_lines_without_noise`: split the combined output into
lines, strip trailing whitespace from each, and drop every line that
contains the substring `id: cannot find`. -/
def stdout_lines_without_noise (stdouterr_text : String) : List (List Char) :=
  ((pySplitLinesL stdouterr_text.data).map pyRstripL).filter
    (fun line => !(listHasInfix noise_marker line))

/-- Source `first_str_match_in_stdout_lines`: whether some noise-filtered
line of the output, after stripping trailing whitespace, equals `s`. -/
def first_str_match_in_stdout_lines (stdouterr_text : String) (s : String) : Bool :=
  (stdout_lines_without_noise stdouterr_text).any (fun line => pyRstripL line == s.data)

/-- The Python exception values that can arise in the script. -/
inductive PyExc
  | runtimeError (msg : String)
  | networkError (msg : String)
  | socketError (msg : String)
  | timeoutException (msg : String)
  | commandTimeout (msg : String)
  | typeError (msg : String)
deriving DecidableEq, Repr

/-- `type(e).__name__` for the modelled exceptions. -/
def PyExc.name : PyExc → String
  | .runtimeError _ => "RuntimeError"
  | .networkError _ => "NetworkError"
  | .socketError _ => "error"
  | .timeoutException _ => "TimeoutException"
  | .commandTimeout _ => "CommandTimeout"
  | .typeError _ => "TypeError"

/-- `str(e)` for the modelled exceptions. -/
def PyExc.message : PyExc → String
  | .runtimeError m => m
  | .networkError m => m
  | .socketError m => m
  | .timeoutException m => m
  | .commandTimeout m => m
  | .typeError m => m

/-- The exception classes caught by `dests_access_test_via_fabric`:
`(RuntimeError, NetworkError, socket_error, TimeoutException, CommandTimeout)`.
`TypeError` is not among them. -/
def caught_by_access_test : PyExc → Bool
  | .typeError _ => false
  | _ => true

/-- Exceptions the remote-execution transport (fabric `run` wrapped in
`time_limit`) may raise: a transport failure, a lower-level socket error,
expiry of the whole-attempt `time_limit` alarm, or the shell-command
timeout. -/
inductive TransportExc
  | networkError (msg : String)
  | socketError (msg : String)
  | timeoutException (msg : String)
  | commandTimeout (msg : String)
deriving DecidableEq, Repr

/-- The transport exception as a Python exception value. -/
def TransportExc.toPyExc : TransportExc → PyExc
  | .networkError m => .networkError m
  | .socketError m => .socketError m
  | .timeoutException m => .timeoutException m
  | .commandTimeout m => .commandTimeout m

/-- Outcome of one remote command invocation: combined stdout/stderr text
with an exit code, or a raised transport exception. -/
inductive RemoteOutcome
  | output (stdouterr_text : String) (return_code : Int)
  | raised (e : TransportExc)
deriving DecidableEq, Repr

/-- The external collaborators of one probe attempt: the local subprocess
path (`subprocess.check_output` with `CalledProcessError` caught, so its
net effect is combined output plus exit code) and the remote path (fabric
`run` under `time_limit(overall_check_timeout)`). -/
structure ProbeEnv where
  local_run : String → String × Int
  remote_run : String → RemoteOutcome

/-- The branch on `env.host_string == "127.0.0.1"`: run the check command
locally rather than on a remote host; otherwise run it over the transport. -/
def run_probe (env : ProbeEnv) (host_string command : String) : RemoteOutcome :=
  if host_string == "127.0.0.1" then
    .output (env.local_run command).1 (env.local_run command).2
  else
    env.remote_run command

/-- `env.timeout`: seconds to wait to connect to the source host. -/
def env_timeout : Int := 3

/-- `access_check_connection_timeout`: connection-setup timeout. -/
def access_check_connection_timeout : Int := 2

/-- `ncat_timeout`: shell-command timeout, 4 seconds of slack on top. -/
def ncat_timeout : Int := 4 + access_check_connection_timeout

/-- `overall_check_timeout`: whole-attempt timeout. -/
def overall_check_timeout : Int := env_timeout + 7 + ncat_timeout

/-- The probe command line
`ncat %s %d -i 5ms -w %ds --send-only % (ip_addr, port, access_check_connection_timeout)`. -/
def check_command (ip_addr : String) (port : Int) : String :=
  "ncat " ++ ip_addr ++ " " ++ toString port ++ " -i 5ms -w " ++
    toString access_check_connection_timeout ++ "s --send-only"

/-- Lines 99-116 of the source: classify the combined output and exit code
of one probe invocation.  A zero exit code raises `RuntimeError`; otherwise
the noise-filtered lines are scanned for the fixed Ncat marker lines and
the result is `[True, None]`, `[False, reason]`, or a raised `RuntimeError`
embedding the raw text when the markers are absent or contradictory. -/
def classify_probe_output (ip_addr : String) (port : Int) (command : String)
    (stdouterr_text : String) (return_code : Int) :
    Except PyExc (Bool × Option String) :=
  if return_code == 0 then
    .error (.runtimeError
      ("got zero exit code from running " ++ command ++ ": " ++ stdouterr_text))
  else
    let connect_failed_timeout :=
      first_str_match_in_stdout_lines stdouterr_text "Ncat: Connection timed out." ||
      first_str_match_in_stdout_lines stdouterr_text "Ncat: Operation timed out."
    let connect_failed_refused :=
      first_str_match_in_stdout_lines stdouterr_text "Ncat: Connection refused."
    let connect_succeeded :=
      first_str_match_in_stdout_lines stdouterr_text "Ncat: Idle timeout expired (5 ms)."
    if connect_succeeded && !connect_failed_timeout && !connect_failed_refused then
      .ok (true, none)
    else if connect_failed_timeout && !connect_succeeded && !connect_failed_refused then
      .ok (false, some "connection timeout")
    else if connect_failed_refused && !connect_succeeded && !connect_failed_timeout then
      .ok (false, some "connection refused")
    else
      .error (.runtimeError
        ("Unclear result from netcat to " ++ ip_addr ++ " tcp/" ++ toString port ++
          ":\n" ++ stdouterr_text))

/-- Source `verify_via_fabric_source_can_connect_to_port`: a link-local
`fe80:` address returns early with Python `None` (modelled `Option.none`);
otherwise the probe command is run (locally or over the transport) and its
output classified.  `.error` models a raised exception. -/
def verify_via_fabric_source_can_connect_to_port (env : ProbeEnv)
    (host_string ip_addr : String) (port : Int) :
    Except PyExc (Option (Bool × Option String)) :=
  if ip_addr.data.take 5 == "fe80:".data then
    .ok none
  else
    match run_probe env host_string (check_command ip_addr port) with
    | .raised e => .error e.toPyExc
    | .output stdouterr_text return_code =>
      (classify_probe_output ip_addr port (check_command ip_addr port)
        stdouterr_text return_code).map some

/-- One entry of the per-source result list:
`[dest_host, port, result, additional, test_time]`. -/
abbrev AccessTestResult : Type :=
  String × Int × String × Option String × Int

/-- The body of the `try`/`except` around one destination's probe in
`dests_access_test_via_fabric`: a caught exception becomes an `error`
record whose message is `type(e).__name__ + ": " + str(e)`; the
`message.replace("\n", "\\n")` call in the source discards its result, so
the message is recorded as is.  The `None` returned by the link-local skip
fails tuple unpacking with a `TypeError`, which is not among the caught
classes. -/
def access_test_step (env : ProbeEnv) (host_string dest_host : String) (port : Int) :
    Except PyExc (String × Option String) :=
  match verify_via_fabric_source_can_connect_to_port env host_string dest_host port with
  | .ok (some (connect_succ, additional)) =>
    .ok ((if connect_succ then "success" else "failure"), additional)
  | .ok none =>
    .error (.typeError "NoneType object is not iterable")
  | .error e =>
    if caught_by_access_test e then
      let message := PyExc.name e ++ ": " ++ PyExc.message e
      let _ := escape_newlines message
      .ok ("error", some message)
    else
      .error e

/-- Source `dests_access_test_via_fabric`: probe each destination in order,
stamping `time.time()` (modelled by the oracle `tm`, one value per loop
iteration).  A caught exception becomes an `error` record whose message is
`type(e).__name__ + ": " + str(e)`; the `message.replace("\n", "\\n")`
call in the source discards its result, so the message is recorded as is.
The `None` returned by the link-local skip fails tuple unpacking with a
`TypeError`, which is not among the caught classes; an uncaught exception
aborts the loop and discards the records accumulated so far (`.error`). -/
def dests_access_test_via_fabric (env : ProbeEnv) (host_string : String)
    (tm : Nat → Int) : List (String × Int) → Except PyExc (List AccessTestResult)
  | [] => .ok []
  | (dest_host, port) :: rest =>
    let test_time := tm 0
    match access_test_step env host_string dest_host port with
    | .error e => .error e
    | .ok (result, additional) =>
      match dests_access_test_via_fabric env host_string (fun i => tm (i + 1)) rest with
      | .error e => .error e
      | .ok l => .ok ((dest_host, port, result, additional, test_time) :: l)

/-- Python values as they appear in the per-source result lists that fabric
hands back to the orchestrator. -/
inductive PyVal
  | int (n : Int)
  | str (s : String)
  | none_
deriving DecidableEq, Repr

/-- The per-source result entry as the heterogeneous Python list
`[dest_host, port, result, additional, test_time]` received by the
orchestrator. -/
def access_test_result_to_py : AccessTestResult → List PyVal
  | (dest_host, port, result, additional, test_time) =>
    [.str dest_host, .int port, .str result,
      (match additional with | none => .none_ | some s => .str s),
      .int test_time]

/-- The record synthesized for every destination of a source whose dispatch
produced `None` (lines 175-177 of the source). -/
def none_source_record (source_ip dest_ip : String) (dest_port : Int) : List PyVal :=
  [.int (-1), .str source_ip, .str dest_ip, .int dest_port, .str "error",
    .str ("got None as output from fabric for " ++ source_ip ++
      ", meaning it wasn't able to run checks"),
    .none_]

/-- Lines 167-172 of the source: each entry of a source's result list must
have exactly 5 items, otherwise `sys.exit(1)` (modelled `.error 1`); a
well-shaped entry becomes `[-1, source_ip] ++ entry`. -/
def flatten_source_results (source_ip : String) :
    List (List PyVal) → Except Int (List (List PyVal))
  | [] => .ok []
  | test_result :: rest =>
    if test_result.length != 5 then
      .error 1
    else
      match flatten_source_results source_ip rest with
      | .error c => .error c
      | .ok l => .ok ((PyVal.int (-1) :: PyVal.str source_ip :: test_result) :: l)

/-- Lines 163-178 of the source: post-process the dict returned by fabric
`execute` (modelled as an association list from source to its result list
or `None`) into the flat result list; a `None` value yields one synthetic
error record per destination. -/
def results_from_result_dict (dests : List (String × Int)) :
    List (String × Option (List (List PyVal))) → Except Int (List (List PyVal))
  | [] => .ok []
  | (source_ip, some test_results) :: rest =>
    match flatten_source_results source_ip test_results with
    | .error c => .error c
    | .ok l =>
      match results_from_result_dict dests rest with
      | .error c => .error c
      | .ok l2 => .ok (l ++ l2)
  | (source_ip, none) :: rest =>
    match results_from_result_dict dests rest with
    | .error c => .error c
    | .ok l2 => .ok (dests.map (fun d => none_source_record source_ip d.1 d.2) ++ l2)

/-- Source `dests_access_test_for_sources`: early return on an empty source
list, otherwise post-process the fabric result dict (passed in as the
oracle value `result_dict`, keyed on source IP). -/
def dests_access_test_for_sources
    (result_dict : List (String × Option (List (List PyVal))))
    (sources : List String) (dests : List (String × Int)) :
    Except Int (List (List PyVal)) :=
  if sources.length == 0 then .ok []
  else results_from_result_dict dests result_dict

/-- Lines 224-228 of the source: the set of already-tested sources, one per
line of the ledger file, each line stripped of trailing whitespace. -/
def already_tested_sources (ledger_content : String) : List String :=
  (pySplitLinesL ledger_content.data).map (fun line => String.mk (pyRstripL line))

/-- Lines 234-241 of the source: the sources to dispatch — each line of the
sources file trimmed of surrounding whitespace, kept unless it is a member
of the already-tested set. -/
def sources_to_use (sources_content : String) (already : List String) : List String :=
  (pySplitLinesL sources_content.data).filterMap (fun line =>
    let source := String.mk (pyLstripL (pyRstripL line))
    if already.contains source then none else some source)

/-- Lines 259-261 of the source: append every dispatched source to the
ledger file, one per line. -/
def already_tested_commit (ledger_content : String) (dispatched : List String) : String :=
  ledger_content ++ joinStrings (dispatched.map (fun s => s ++ "\n"))

/-- The spec's notion of a marker being present: some noise-filtered line
of the output is exactly the marker line. -/
def marker_line_present (stdouterr_text : String) (marker : String) : Prop :=
  ∃ line, line ∈ stdout_lines_without_noise stdouterr_text ∧ line = marker.data

instance (t m : String) : Decidable (marker_line_present t m) :=
  inferInstanceAs (Decidable (∃ line, line ∈ _ ∧ _))

/-! ## Helper lemmas about the Python string primitives -/

theorem dropWhile_head_false {p : Char → Bool} :
    ∀ {l : List Char} {c : Char}, (l.dropWhile p).head? = some c → p c = false := by
  intro l
  induction l with
  | nil => intro c h; simp at h
  | cons x xs ih =>
    intro c h
    rw [List.dropWhile_cons] at h
    by_cases hx : p x = true
    · rw [if_pos hx] at h; exact ih h
    · rw [if_neg hx] at h
      simp only [List.head?_cons, Option.some.injEq] at h
      subst h
      exact Bool.eq_false_iff.mpr hx

theorem mem_pyRstripL {c : Char} {l : List Char} (h : c ∈ pyRstripL l) : c ∈ l := by
  unfold pyRstripL at h
  rw [List.mem_reverse] at h
  have := (List.dropWhile_sublist (l := l.reverse) pyIsSpace).mem h
  rwa [List.mem_reverse] at this

theorem pyRstripL_eq_self {l : List Char}
    (h : ∀ c, l.getLast? = some c → pyIsSpace c = false) : pyRstripL l = l := by
  unfold pyRstripL
  rcases hrev : l.reverse with _ | ⟨c, t⟩
  · have : l = [] := by simpa using congrArg List.reverse hrev
    simp [this]
  · have hc : pyIsSpace c = false := by
      apply h
      rw [List.getLast?_eq_head?_reverse, hrev]
      rfl
    have hdrop : List.dropWhile pyIsSpace (c :: t) = c :: t := by
      rw [List.dropWhile_cons, hc]
      simp
    rw [hdrop, ← hrev, List.reverse_reverse]

theorem pyRstripL_getLast {l : List Char} {c : Char}
    (h : (pyRstripL l).getLast? = some c) : pyIsSpace c = false := by
  unfold pyRstripL at h
  rw [List.getLast?_eq_head?_reverse, List.reverse_reverse] at h
  exact dropWhile_head_false h

theorem pyRstripL_idem (l : List Char) : pyRstripL (pyRstripL l) = pyRstripL l :=
  pyRstripL_eq_self (fun _ hc => pyRstripL_getLast hc)

theorem pyRstripL_append_space {c : Char} (hc : pyIsSpace c = true) (l : List Char) :
    pyRstripL (l ++ [c]) = pyRstripL l := by
  unfold pyRstripL
  rw [List.reverse_append]
  simp [List.dropWhile_cons, hc]

theorem pyRstripL_pyLstripL (l : List Char) :
    pyRstripL (pyLstripL (pyRstripL l)) = pyLstripL (pyRstripL l) := by
  apply pyRstripL_eq_self
  intro c hc
  apply pyRstripL_getLast (l := l)
  obtain ⟨t, ht⟩ := List.dropWhile_suffix (l := pyRstripL l) pyIsSpace
  rw [← ht, List.getLast?_append]
  have : pyLstripL (pyRstripL l) = List.dropWhile pyIsSpace (pyRstripL l) := rfl
  rw [this] at hc
  rw [hc]
  rfl

theorem mem_pyLstripL {c : Char} {l : List Char} (h : c ∈ pyLstripL l) : c ∈ l :=
  (List.dropWhile_sublist (l := l) pyIsSpace).mem h


/-! ## Helper lemmas about line splitting -/

theorem splitLinesAux_nil_eq (acc : List Char) :
    splitLinesAux [] acc = if acc.isEmpty then [] else [acc.reverse] := rfl

theorem splitLinesAux_cons_eq (c : Char) (rest acc : List Char) :
    splitLinesAux (c :: rest) acc =
      if c == '\n' then (acc.reverse ++ ['\n']) :: splitLinesAux rest []
      else splitLinesAux rest (c :: acc) := rfl

theorem splitLinesAux_line :
    ∀ (a : List Char), '\n' ∉ a → ∀ (acc rest : List Char),
      splitLinesAux (a ++ '\n' :: rest) acc =
        (acc.reverse ++ a ++ ['\n']) :: splitLinesAux rest [] := by
  intro a
  induction a with
  | nil =>
    intro _ acc rest
    rw [List.nil_append, splitLinesAux_cons_eq]
    simp
  | cons c a ih =>
    intro ha acc rest
    have hc : (c == '\n') = false := by
      simp only [beq_eq_false_iff_ne, ne_eq]
      rintro rfl
      exact ha (List.mem_cons_self _ _)
    rw [List.cons_append, splitLinesAux_cons_eq, hc]
    simp only [Bool.false_eq_true, if_false]
    rw [ih (fun h => ha (List.mem_cons_of_mem _ h)) (c :: acc)]
    simp

theorem splitLinesAux_append :
    ∀ (a : List Char), a.getLast? = some '\n' → ∀ (b acc : List Char),
      splitLinesAux (a ++ b) acc = splitLinesAux a acc ++ splitLinesAux b []
  | [], h => by simp at h
  | [c], h => by
    intro b acc
    simp only [List.getLast?_singleton, Option.some.injEq] at h
    subst h
    rw [List.cons_append, List.nil_append, splitLinesAux_cons_eq, splitLinesAux_cons_eq]
    simp [splitLinesAux_nil_eq]
  | c :: c2 :: a, h => by
    intro b acc
    have h2 : (c2 :: a).getLast? = some '\n' := by
      rwa [List.getLast?_cons_cons] at h
    rw [List.cons_append, splitLinesAux_cons_eq, splitLinesAux_cons_eq c (c2 :: a) acc]
    by_cases hc : (c == '\n') = true
    · rw [if_pos hc, if_pos hc]
      rw [show (c2 :: a) ++ b = c2 :: (a ++ b) from List.cons_append c2 a b] at *
      rw [show splitLinesAux (c2 :: (a ++ b)) [] =
            splitLinesAux ((c2 :: a) ++ b) [] from by rw [List.cons_append]]
      rw [splitLinesAux_append (c2 :: a) h2 b []]
      simp
    · have hcb : (c == '\n') = false := Bool.eq_false_iff.mpr hc
      rw [hcb]
      simp only [Bool.false_eq_true, if_false]
      exact splitLinesAux_append (c2 :: a) h2 b (c :: acc)

theorem pySplitLinesL_append {t : List Char} (h : t.getLast? = some '\n')
    (u : List Char) : pySplitLinesL (t ++ u) = pySplitLinesL t ++ pySplitLinesL u :=
  splitLinesAux_append t h u []

theorem splitLinesAux_rstrip_no_newline :
    ∀ (t acc : List Char), '\n' ∉ acc →
      ∀ line ∈ splitLinesAux t acc, '\n' ∉ pyRstripL line := by
  intro t
  induction t with
  | nil =>
    intro acc hacc line hline
    rw [splitLinesAux_nil_eq] at hline
    by_cases h : acc.isEmpty
    · rw [if_pos h] at hline; simp at hline
    · rw [if_neg h] at hline
      simp only [List.mem_singleton] at hline
      subst hline
      intro hmem
      exact hacc (by simpa using mem_pyRstripL hmem)
  | cons c t ih =>
    intro acc hacc line hline
    rw [splitLinesAux_cons_eq] at hline
    by_cases hc : (c == '\n') = true
    · rw [if_pos hc] at hline
      rcases List.mem_cons.mp hline with h1 | h1
      · subst h1
        have hcn : c = '\n' := by simpa using hc
        subst hcn
        rw [pyRstripL_append_space (by decide)]
        intro hmem
        exact hacc (by simpa using mem_pyRstripL hmem)
      · exact ih [] (by simp) line h1
    · rw [if_neg hc] at hline
      have hcn : c ≠ '\n' := by simpa using hc
      refine ih (c :: acc) ?_ line hline
      intro hmem
      rcases List.mem_cons.mp hmem with h1 | h1
      · exact hcn h1.symm
      · exact hacc h1

theorem mem_pySplitLinesL_rstrip_no_newline {t line : List Char}
    (h : line ∈ pySplitLinesL t) : '\n' ∉ pyRstripL line :=
  splitLinesAux_rstrip_no_newline t [] (by simp) line h

/-! ## Helper lemmas about substring containment -/

theorem listHasInfix_iff (sub : List Char) :
    ∀ (l : List Char), listHasInfix sub l = true ↔ sub <:+: l := by
  intro l
  induction l with
  | nil =>
    simp only [listHasInfix, List.isEmpty_iff, List.infix_nil]
  | cons c rest ih =>
    simp only [listHasInfix, Bool.or_eq_true, List.isPrefixOf_iff_prefix, ih,
      List.infix_cons_iff]

theorem infix_dropWhile {p : Char → Bool} {sub : List Char} {c : Char}
    (hh : sub.head? = some c) (hc : p c = false) :
    ∀ {l : List Char}, sub <:+: l → sub <:+: l.dropWhile p := by
  intro l
  induction l with
  | nil =>
    intro h
    rw [List.infix_nil] at h
    subst h
    simp at hh
  | cons d rest ih =>
    intro h
    rcases List.infix_cons_iff.mp h with hpre | hinf
    · have hcd : c = d := by
        rcases sub with _ | ⟨c0, sub2⟩
        · simp at hh
        · have h1 : c0 = c := by
            simpa using hh
          have h2 : c0 = d := (List.cons_prefix_cons.mp hpre).1
          rw [← h1, h2]
      have hpd : p d = false := hcd ▸ hc
      rw [List.dropWhile_cons, hpd]
      simp only [Bool.false_eq_true, if_false]
      exact hpre.isInfix
    · rw [List.dropWhile_cons]
      by_cases hd : p d = true
      · rw [if_pos hd]
        exact ih hinf
      · rw [if_neg hd]
        exact hinf.trans (List.suffix_cons d rest).isInfix

theorem listHasInfix_pyRstripL {l : List Char}
    (h : listHasInfix noise_marker l = true) :
    listHasInfix noise_marker (pyRstripL l) = true := by
  rw [listHasInfix_iff] at h ⊢
  have hrev : noise_marker.reverse <:+: l.reverse := List.reverse_infix.mpr h
  have hh : noise_marker.reverse.head? = some 'd' := by decide
  have hc : pyIsSpace 'd' = false := by decide
  have hdrop := infix_dropWhile hh hc hrev
  have : noise_marker.reverse <:+: (pyRstripL l).reverse := by
    unfold pyRstripL
    rwa [List.reverse_reverse]
  exact List.reverse_infix.mp this

/-! ## Helper lemmas about the noise filter and marker scanning -/

theorem mem_stdout_lines_rstrip {t : String} {line : List Char}
    (h : line ∈ stdout_lines_without_noise t) : pyRstripL line = line := by
  unfold stdout_lines_without_noise at h
  have h1 := (List.mem_filter.mp h).1
  rcases List.mem_map.mp h1 with ⟨x, _, hx⟩
  rw [← hx]
  exact pyRstripL_idem x

theorem stdout_lines_no_noise {t : String} {line : List Char}
    (h : line ∈ stdout_lines_without_noise t) :
    listHasInfix noise_marker line = false := by
  unfold stdout_lines_without_noise at h
  have h2 := (List.mem_filter.mp h).2
  simpa using h2

theorem first_str_match_iff (t m : String) :
    first_str_match_in_stdout_lines t m = true ↔ marker_line_present t m := by
  unfold first_str_match_in_stdout_lines marker_line_present
  rw [List.any_eq_true]
  constructor
  · rintro ⟨line, hmem, hbeq⟩
    refine ⟨line, hmem, ?_⟩
    have := mem_stdout_lines_rstrip hmem
    rw [this] at hbeq
    exact eq_of_beq hbeq
  · rintro ⟨line, hmem, hline⟩
    refine ⟨line, hmem, ?_⟩
    rw [mem_stdout_lines_rstrip hmem, hline]
    exact beq_self_eq_true _


/-! ## Helper lemmas about the classifier, verify, and the runner -/

theorem classify_error_runtimeError {ip_addr : String} {port : Int}
    {command stdouterr_text : String} {return_code : Int} {e : PyExc}
    (h : classify_probe_output ip_addr port command stdouterr_text return_code =
      .error e) : ∃ m, e = PyExc.runtimeError m := by
  simp only [classify_probe_output] at h
  split at h
  · injection h with h
    exact ⟨_, h.symm⟩
  · split at h
    · simp at h
    · split at h
      · simp at h
      · split at h
        · simp at h
        · injection h with h
          exact ⟨_, h.symm⟩

theorem caught_toPyExc (e : TransportExc) :
    caught_by_access_test e.toPyExc = true := by
  cases e <;> rfl

theorem verify_not_fe80_sound (env : ProbeEnv) (host_string ip_addr : String)
    (port : Int) (hip : (ip_addr.data.take 5 == "fe80:".data) = false) :
    (∃ v, verify_via_fabric_source_can_connect_to_port env host_string ip_addr port =
      .ok (some v)) ∨
    (∃ e, verify_via_fabric_source_can_connect_to_port env host_string ip_addr port =
      .error e ∧ caught_by_access_test e = true) := by
  unfold verify_via_fabric_source_can_connect_to_port
  rw [hip]
  simp only [Bool.false_eq_true, if_false]
  rcases hrp : run_probe env host_string (check_command ip_addr port) with ⟨t, c⟩ | e
  · rcases hcl : classify_probe_output ip_addr port (check_command ip_addr port) t c
      with e | v
    · rcases classify_error_runtimeError hcl with ⟨m, rfl⟩
      refine Or.inr ⟨.runtimeError m, ?_, rfl⟩
      simp only [hcl]
      rfl
    · refine Or.inl ⟨v, ?_⟩
      simp only [hcl]
      rfl
  · exact Or.inr ⟨e.toPyExc, by simp, caught_toPyExc e⟩

theorem access_test_step_ok_of_not_fe80 (env : ProbeEnv) (host_string dest_host : String)
    (port : Int) (hip : (dest_host.data.take 5 == "fe80:".data) = false) :
    ∃ ra, access_test_step env host_string dest_host port = .ok ra := by
  unfold access_test_step
  rcases verify_not_fe80_sound env host_string dest_host port hip with ⟨⟨b, add⟩, hv⟩ | ⟨e, hv, hc⟩
  · rw [hv]
    exact ⟨_, rfl⟩
  · rw [hv]
    simp only [hc, if_true]
    exact ⟨_, rfl⟩

theorem runner_ok_map :
    ∀ (dests : List (String × Int)) (env : ProbeEnv) (host_string : String)
      (tm : Nat → Int) (l : List AccessTestResult),
      dests_access_test_via_fabric env host_string tm dests = .ok l →
      l.map (fun r => (r.1, r.2.1)) = dests := by
  intro dests
  induction dests with
  | nil =>
    intro env hs tm l h
    simp only [dests_access_test_via_fabric] at h
    injection h with h
    rw [← h]
    rfl
  | cons d rest ih =>
    intro env hs tm l h
    rcases d with ⟨dest_host, port⟩
    rcases hstep : access_test_step env hs dest_host port with e | ⟨result, additional⟩
    · simp only [dests_access_test_via_fabric, hstep] at h
      simp at h
    · simp only [dests_access_test_via_fabric, hstep] at h
      rcases hr : dests_access_test_via_fabric env hs (fun i => tm (i + 1)) rest
        with e2 | l2
      · rw [hr] at h
        cases h
      · rw [hr] at h
        injection h with h
        rw [← h]
        simp only [List.map_cons]
        rw [ih env hs (fun i => tm (i + 1)) l2 hr]

theorem runner_ok_length {dests : List (String × Int)} {env : ProbeEnv}
    {host_string : String} {tm : Nat → Int} {l : List AccessTestResult}
    (h : dests_access_test_via_fabric env host_string tm dests = .ok l) :
    l.length = dests.length := by
  have := runner_ok_map dests env host_string tm l h
  rw [← this, List.length_map]

theorem runner_total :
    ∀ (dests : List (String × Int)),
      (∀ d ∈ dests, (d.1.data.take 5 == "fe80:".data) = false) →
      ∀ (env : ProbeEnv) (host_string : String) (tm : Nat → Int),
        ∃ l, dests_access_test_via_fabric env host_string tm dests = .ok l ∧
          l.map (fun r => (r.1, r.2.1)) = dests := by
  intro dests
  induction dests with
  | nil =>
    intro _ env hs tm
    exact ⟨[], rfl, rfl⟩
  | cons d rest ih =>
    intro hfe env hs tm
    rcases d with ⟨dest_host, port⟩
    obtain ⟨⟨result, additional⟩, hstep⟩ :=
      access_test_step_ok_of_not_fe80 env hs dest_host port
        (hfe _ (List.mem_cons_self _ _))
    obtain ⟨l2, hl2, hmap⟩ :=
      ih (fun d hd => hfe d (List.mem_cons_of_mem _ hd)) env hs (fun i => tm (i + 1))
    refine ⟨(dest_host, port, result, additional, tm 0) :: l2, ?_, ?_⟩
    · simp only [dests_access_test_via_fabric, hstep, hl2]
    · simp only [List.map_cons, hmap]

/-! ## Helper lemmas about the orchestrator post-processing -/

theorem access_test_result_to_py_length (r : AccessTestResult) :
    (access_test_result_to_py r).length = 5 := by
  rcases r with ⟨h, p, res, add, ts⟩
  cases add <;> rfl

theorem flatten_source_results_ok_eq :
    ∀ {source_ip : String} {trs : List (List PyVal)} {l : List (List PyVal)},
      flatten_source_results source_ip trs = .ok l →
      l = trs.map (fun tr => PyVal.int (-1) :: PyVal.str source_ip :: tr) := by
  intro source_ip trs
  induction trs with
  | nil =>
    intro l h
    simp only [flatten_source_results] at h
    injection h with h
    rw [← h]
    rfl
  | cons tr rest ih =>
    intro l h
    simp only [flatten_source_results] at h
    by_cases hlen : (tr.length != 5) = true
    · rw [if_pos hlen] at h
      cases h
    · rw [if_neg hlen] at h
      rcases hrec : flatten_source_results source_ip rest with c | l2
      · rw [hrec] at h
        cases h
      · rw [hrec] at h
        injection h with h
        rw [← h, ih hrec]
        rfl

theorem flatten_source_results_ok_of_lengths :
    ∀ {source_ip : String} {trs : List (List PyVal)},
      (∀ tr ∈ trs, tr.length = 5) →
      flatten_source_results source_ip trs =
        .ok (trs.map (fun tr => PyVal.int (-1) :: PyVal.str source_ip :: tr)) := by
  intro source_ip trs
  induction trs with
  | nil => intro _; rfl
  | cons tr rest ih =>
    intro hlen
    have h5 : tr.length = 5 := hlen tr (List.mem_cons_self _ _)
    have hb : (tr.length != 5) = false := by simp [h5]
    simp only [flatten_source_results, hb, Bool.false_eq_true, if_false]
    rw [ih (fun tr2 h2 => hlen tr2 (List.mem_cons_of_mem _ h2))]
    rfl

theorem flatten_source_results_error_of_malformed :
    ∀ {source_ip : String} {trs : List (List PyVal)} {tr : List PyVal},
      tr ∈ trs → tr.length ≠ 5 → flatten_source_results source_ip trs = .error 1 := by
  intro source_ip trs
  induction trs with
  | nil => intro tr h; simp at h
  | cons tr0 rest ih =>
    intro tr hmem hlen
    rcases List.mem_cons.mp hmem with h1 | h1
    · subst h1
      have hb : (tr.length != 5) = true := by simp [hlen]
      simp only [flatten_source_results, hb, if_true]
    · simp only [flatten_source_results]
      by_cases hb : (tr0.length != 5) = true
      · rw [if_pos hb]
      · rw [if_neg hb, ih h1 hlen]

theorem results_from_result_dict_ok_eq :
    ∀ {dests : List (String × Int)}
      {result_dict : List (String × Option (List (List PyVal)))}
      {res : List (List PyVal)},
      results_from_result_dict dests result_dict = .ok res →
      res = (result_dict.map (fun p =>
        Option.elim p.2
          (dests.map (fun d => none_source_record p.1 d.1 d.2))
          (fun trs => trs.map (fun tr => PyVal.int (-1) :: PyVal.str p.1 :: tr)))).flatten := by
  intro dests result_dict
  induction result_dict with
  | nil =>
    intro res h
    simp only [results_from_result_dict] at h
    injection h with h
    rw [← h]
    rfl
  | cons p rest ih =>
    intro res h
    rcases p with ⟨source_ip, trs?⟩
    rcases trs? with _ | trs
    · simp only [results_from_result_dict] at h
      rcases hrec : results_from_result_dict dests rest with c | l2
      · rw [hrec] at h
        cases h
      · rw [hrec] at h
        injection h with h
        rw [← h, ih hrec]
        simp [Option.elim]
    · simp only [results_from_result_dict] at h
      rcases hfl : flatten_source_results source_ip trs with c | l1
      · rw [hfl] at h
        cases h
      · rw [hfl] at h
        rcases hrec : results_from_result_dict dests rest with c | l2
        · rw [hrec] at h
          cases h
        · rw [hrec] at h
          injection h with h
          rw [← h, ih hrec, flatten_source_results_ok_eq hfl]
          simp [Option.elim]

theorem results_from_result_dict_ok_of_good :
    ∀ {d : List (String × Int)}
      {result_dict : List (String × Option (List (List PyVal)))},
      (∀ p ∈ result_dict, ∀ trs, p.2 = some trs → ∀ tr ∈ trs, tr.length = 5) →
      ∃ res, results_from_result_dict d result_dict = .ok res := by
  intro dests result_dict
  induction result_dict with
  | nil => intro _; exact ⟨[], rfl⟩
  | cons p rest ih =>
    intro hgood
    obtain ⟨res2, h2⟩ := ih (fun q hq => hgood q (List.mem_cons_of_mem _ hq))
    rcases p with ⟨source_ip, trs?⟩
    rcases trs? with _ | trs
    · refine ⟨dests.map (fun d => none_source_record source_ip d.1 d.2) ++ res2, ?_⟩
      simp only [results_from_result_dict, h2]
    · have hlen : ∀ tr ∈ trs, tr.length = 5 :=
        hgood (source_ip, some trs) (List.mem_cons_self _ _) trs rfl
      refine ⟨(trs.map (fun tr => PyVal.int (-1) :: PyVal.str source_ip :: tr)) ++ res2, ?_⟩
      simp only [results_from_result_dict, flatten_source_results_ok_of_lengths hlen, h2]

theorem flatten_source_results_error_code :
    ∀ {source_ip : String} {trs : List (List PyVal)} {c : Int},
      flatten_source_results source_ip trs = .error c → c = 1 := by
  intro source_ip trs
  induction trs with
  | nil => intro c h; simp only [flatten_source_results] at h; cases h
  | cons tr rest ih =>
    intro c h
    simp only [flatten_source_results] at h
    by_cases hb : (tr.length != 5) = true
    · rw [if_pos hb] at h
      injection h with h
      exact h.symm
    · rw [if_neg hb] at h
      rcases hrec : flatten_source_results source_ip rest with c2 | l2
      · rw [hrec] at h
        injection h with h
        rw [← h]
        exact ih hrec
      · rw [hrec] at h
        cases h

theorem results_from_result_dict_error_of_malformed :
    ∀ {dests : List (String × Int)}
      {result_dict : List (String × Option (List (List PyVal)))}
      {source_ip : String} {trs : List (List PyVal)} {tr : List PyVal},
      (source_ip, some trs) ∈ result_dict → tr ∈ trs → tr.length ≠ 5 →
      results_from_result_dict dests result_dict = .error 1 := by
  intro dests result_dict
  induction result_dict with
  | nil => intro _ _ _ h; simp at h
  | cons p rest ih =>
    intro source_ip trs tr hmem htr hlen
    rcases List.mem_cons.mp hmem with h1 | h1
    · rw [← h1]
      simp only [results_from_result_dict,
        flatten_source_results_error_of_malformed htr hlen]
    · rcases p with ⟨sip, trs?⟩
      rcases trs? with _ | trs0
      · simp only [results_from_result_dict, ih h1 htr hlen]
      · simp only [results_from_result_dict]
        rcases hfl : flatten_source_results sip trs0 with c | l1
        · have hc := flatten_source_results_error_code hfl
          subst hc
          simp only [hfl]
        · simp only [hfl, ih h1 htr hlen]

/-! ## Helper lemmas about the ledger -/

theorem string_mk_data (s : String) : String.mk s.data = s := rfl

theorem list_contains_iff {l : List String} {s : String} :
    l.contains s = true ↔ s ∈ l := by
  simp [List.contains]

theorem joinStrings_lines_data :
    ∀ (S : List String), (∀ s ∈ S, '\n' ∉ s.data) →
      pySplitLinesL (joinStrings (S.map (fun s => s ++ "\n"))).data =
        S.map (fun s => s.data ++ ['\n']) := by
  intro S
  induction S with
  | nil => intro _; rfl
  | cons s rest ih =>
    intro hS
    have hdata : (joinStrings ((s :: rest).map (fun x => x ++ "\n"))).data =
        s.data ++ '\n' :: (joinStrings (rest.map (fun x => x ++ "\n"))).data := by
      simp only [List.map_cons, joinStrings, String.data_append]
      rw [List.append_assoc]
      rfl
    rw [hdata]
    unfold pySplitLinesL
    rw [splitLinesAux_line s.data (hS s (List.mem_cons_self _ _)) []]
    simp only [List.reverse_nil, List.nil_append, List.map_cons]
    rw [show splitLinesAux (joinStrings (rest.map (fun x => x ++ "\n"))).data [] =
      pySplitLinesL (joinStrings (rest.map (fun x => x ++ "\n"))).data from rfl]
    rw [ih (fun x hx => hS x (List.mem_cons_of_mem _ hx))]

theorem mem_sources_to_use {sources_content : String} {already : List String}
    {s : String} (h : s ∈ sources_to_use sources_content already) :
    '\n' ∉ s.data ∧ pyRstripL s.data = s.data := by
  unfold sources_to_use at h
  rcases List.mem_filterMap.mp h with ⟨line, hline, hf⟩
  by_cases hc : already.contains (String.mk (pyLstripL (pyRstripL line))) = true
  · simp only [hc, if_true] at hf
    cases hf
  · simp only [hc] at hf
    rw [if_neg (by simp [hc])] at hf
    injection hf with hf
    rw [← hf]
    constructor
    · intro hmem
      exact mem_pySplitLinesL_rstrip_no_newline hline (mem_pyLstripL hmem)
    · exact pyRstripL_pyLstripL line

theorem already_tested_sources_commit {ledger_content : String}
    (hc : ledger_content = "" ∨ ledger_content.data.getLast? = some '\n')
    {S : List String} (hS : ∀ s ∈ S, '\n' ∉ s.data ∧ pyRstripL s.data = s.data) :
    already_tested_sources (already_tested_commit ledger_content S) =
      already_tested_sources ledger_content ++ S := by
  unfold already_tested_sources already_tested_commit
  rw [String.data_append]
  have hjoin : pySplitLinesL (joinStrings (S.map (fun s => s ++ "\n"))).data =
      S.map (fun s => s.data ++ ['\n']) :=
    joinStrings_lines_data S (fun s hs => (hS s hs).1)
  have hmapped : (S.map (fun s => s.data ++ ['\n'])).map
      (fun line => String.mk (pyRstripL line)) = S := by
    rw [List.map_map]
    refine List.map_congr_left ?_ |>.trans (List.map_id S)
    intro s hs
    simp only [Function.comp]
    rw [pyRstripL_append_space (by decide), (hS s hs).2, string_mk_data, id]
  rcases hc with hc | hc
  · subst hc
    simp only [show ("" : String).data = [] from rfl, List.nil_append]
    rw [hjoin, hmapped]
    rfl
  · rw [pySplitLinesL_append hc, List.map_append, hjoin, hmapped]

theorem sources_to_use_eq_nil (sources_content : String) (already2 : List String)
    (h : ∀ line ∈ pySplitLinesL sources_content.data,
      String.mk (pyLstripL (pyRstripL line)) ∈ already2) :
    sources_to_use sources_content already2 = [] := by
  unfold sources_to_use
  rw [List.filterMap_eq_nil_iff]
  intro line hline
  have hmem := h line hline
  rw [← list_contains_iff] at hmem
  simp only [hmem, if_true]

theorem line_source_mem_or (sources_content : String) (already : List String)
    (line : List Char) (hline : line ∈ pySplitLinesL sources_content.data) :
    String.mk (pyLstripL (pyRstripL line)) ∈ already ∨
      String.mk (pyLstripL (pyRstripL line)) ∈ sources_to_use sources_content already := by
  by_cases hc : already.contains (String.mk (pyLstripL (pyRstripL line))) = true
  · exact Or.inl (list_contains_iff.mp hc)
  · refine Or.inr ?_
    unfold sources_to_use
    refine List.mem_filterMap.mpr ⟨line, hline, ?_⟩
    simp only [hc]
    simp

theorem sources_to_use_append_self (sources_content : String) (already : List String) :
    sources_to_use sources_content
      (already ++ sources_to_use sources_content already) = [] := by
  apply sources_to_use_eq_nil
  intro line hline
  rcases line_source_mem_or sources_content already line hline with h | h
  · exact List.mem_append_left _ h
  · exact List.mem_append_right _ h

/-! ## Helper lemmas about noise-line insertion -/

theorem stdout_lines_insert_noise (pre nl post : String)
    (hpre : pre = "" ∨ pre.data.getLast? = some '\n')
    (hnl : '\n' ∉ nl.data)
    (hnoise : listHasInfix noise_marker nl.data = true) :
    stdout_lines_without_noise (pre ++ nl ++ "\n" ++ post) =
      stdout_lines_without_noise (pre ++ post) := by
  unfold stdout_lines_without_noise
  have hdata1 : ((pre ++ nl ++ "\n" ++ post) : String).data =
      pre.data ++ (nl.data ++ '\n' :: post.data) := by
    simp only [String.data_append, List.append_assoc]
    rfl
  have hdata2 : ((pre ++ post) : String).data = pre.data ++ post.data :=
    String.data_append _ _
  rw [hdata1, hdata2]
  have hPA : ∀ Y : List Char,
      pySplitLinesL (pre.data ++ Y) = pySplitLinesL pre.data ++ pySplitLinesL Y := by
    rcases hpre with h0 | hlast
    · intro Y
      rw [show pre.data = [] from by rw [h0]]
      rfl
    · intro Y
      exact pySplitLinesL_append hlast Y
  have hsplit_mid : pySplitLinesL (nl.data ++ '\n' :: post.data) =
      (nl.data ++ ['\n']) :: pySplitLinesL post.data := by
    unfold pySplitLinesL
    rw [splitLinesAux_line nl.data hnl []]
    simp
  rw [hPA, hPA, hsplit_mid]
  simp only [List.map_append, List.filter_append, List.map_cons, List.filter_cons]
  rw [pyRstripL_append_space (by decide) nl.data]
  have hfalse : (!(listHasInfix noise_marker (pyRstripL nl.data))) = false := by
    rw [listHasInfix_pyRstripL hnoise]
    rfl
  rw [hfalse]
  simp

theorem first_str_match_insert_noise (pre nl post : String)
    (hpre : pre = "" ∨ pre.data.getLast? = some '\n')
    (hnl : '\n' ∉ nl.data)
    (hnoise : listHasInfix noise_marker nl.data = true) (s : String) :
    first_str_match_in_stdout_lines (pre ++ nl ++ "\n" ++ post) s =
      first_str_match_in_stdout_lines (pre ++ post) s := by
  unfold first_str_match_in_stdout_lines
  rw [stdout_lines_insert_noise pre nl post hpre hnl hnoise]

theorem classify_insert_noise_ok_iff (pre nl post : String)
    (hpre : pre = "" ∨ pre.data.getLast? = some '\n')
    (hnl : '\n' ∉ nl.data)
    (hnoise : listHasInfix noise_marker nl.data = true)
    (ip_addr : String) (port : Int) (command : String) (return_code : Int)
    (v : Bool × Option String) :
    classify_probe_output ip_addr port command (pre ++ nl ++ "\n" ++ post) return_code =
      .ok v ↔
    classify_probe_output ip_addr port command (pre ++ post) return_code = .ok v := by
  simp only [classify_probe_output]
  by_cases h0 : (return_code == 0) = true
  · simp [h0]
  · simp only [h0, Bool.false_eq_true, if_false]
    rw [first_str_match_insert_noise pre nl post hpre hnl hnoise "Ncat: Connection timed out.",
      first_str_match_insert_noise pre nl post hpre hnl hnoise "Ncat: Operation timed out.",
      first_str_match_insert_noise pre nl post hpre hnl hnoise "Ncat: Connection refused.",
      first_str_match_insert_noise pre nl post hpre hnl hnoise "Ncat: Idle timeout expired (5 ms)."]
    split_ifs <;> simp

/-! ## Claim theorems -/

/-- C1: Probe Classifier verdict logic.  For every combined output text and
exit code: a zero exit code yields an `Error`; otherwise, after noise-line
removal, the verdict is `Success` exactly when the reachable marker line is
present and neither failure marker is; `Failure` with reason
`connection timeout` (resp. `connection refused`) exactly when that failure
marker category is present, the other failure marker is absent, and the
reachable marker is absent; every other combination yields an `Error`
carrying the raw text. -/
theorem c1_probe_classifier_verdict_logic
    (ip_addr : String) (port : Int) (command stdouterr_text : String)
    (return_code : Int) :
    (return_code = 0 →
      classify_probe_output ip_addr port command stdouterr_text return_code =
        .error (.runtimeError
          ("got zero exit code from running " ++ command ++ ": " ++ stdouterr_text))) ∧
    (return_code ≠ 0 →
      ((classify_probe_output ip_addr port command stdouterr_text return_code =
          .ok (true, none) ↔
        (marker_line_present stdouterr_text "Ncat: Idle timeout expired (5 ms)." ∧
         ¬(marker_line_present stdouterr_text "Ncat: Connection timed out." ∨
           marker_line_present stdouterr_text "Ncat: Operation timed out.") ∧
         ¬marker_line_present stdouterr_text "Ncat: Connection refused.")) ∧
       (classify_probe_output ip_addr port command stdouterr_text return_code =
          .ok (false, some "connection timeout") ↔
        ((marker_line_present stdouterr_text "Ncat: Connection timed out." ∨
          marker_line_present stdouterr_text "Ncat: Operation timed out.") ∧
         ¬marker_line_present stdouterr_text "Ncat: Connection refused." ∧
         ¬marker_line_present stdouterr_text "Ncat: Idle timeout expired (5 ms).")) ∧
       (classify_probe_output ip_addr port command stdouterr_text return_code =
          .ok (false, some "connection refused") ↔
        (marker_line_present stdouterr_text "Ncat: Connection refused." ∧
         ¬(marker_line_present stdouterr_text "Ncat: Connection timed out." ∨
           marker_line_present stdouterr_text "Ncat: Operation timed out.") ∧
         ¬marker_line_present stdouterr_text "Ncat: Idle timeout expired (5 ms).")) ∧
       ((¬(marker_line_present stdouterr_text "Ncat: Idle timeout expired (5 ms)." ∧
           ¬(marker_line_present stdouterr_text "Ncat: Connection timed out." ∨
             marker_line_present stdouterr_text "Ncat: Operation timed out.") ∧
           ¬marker_line_present stdouterr_text "Ncat: Connection refused.") ∧
         ¬((marker_line_present stdouterr_text "Ncat: Connection timed out." ∨
            marker_line_present stdouterr_text "Ncat: Operation timed out.") ∧
           ¬marker_line_present stdouterr_text "Ncat: Connection refused." ∧
           ¬marker_line_present stdouterr_text "Ncat: Idle timeout expired (5 ms).") ∧
         ¬(marker_line_present stdouterr_text "Ncat: Connection refused." ∧
           ¬(marker_line_present stdouterr_text "Ncat: Connection timed out." ∨
             marker_line_present stdouterr_text "Ncat: Operation timed out.") ∧
           ¬marker_line_present stdouterr_text "Ncat: Idle timeout expired (5 ms).")) →
        classify_probe_output ip_addr port command stdouterr_text return_code =
          .error (.runtimeError
            ("Unclear result from netcat to " ++ ip_addr ++ " tcp/" ++
              toString port ++ ":\n" ++ stdouterr_text))))) := by
  constructor
  · intro h0
    subst h0
    simp [classify_probe_output]
  · intro h0
    have h0b : (return_code == 0) = false := by
      simpa using h0
    rcases Bool.eq_false_or_eq_true
        (first_str_match_in_stdout_lines stdouterr_text "Ncat: Connection timed out.")
      with ha | ha <;>
    rcases Bool.eq_false_or_eq_true
        (first_str_match_in_stdout_lines stdouterr_text "Ncat: Operation timed out.")
      with hb | hb <;>
    rcases Bool.eq_false_or_eq_true
        (first_str_match_in_stdout_lines stdouterr_text "Ncat: Connection refused.")
      with hr | hr <;>
    rcases Bool.eq_false_or_eq_true
        (first_str_match_in_stdout_lines stdouterr_text
          "Ncat: Idle timeout expired (5 ms).")
      with hs | hs <;>
    refine ⟨?_, ?_, ?_, ?_⟩ <;>
    simp [classify_probe_output, h0b, ha, hb, hr, hs, ← first_str_match_iff]

/-- Witness for C1 at concrete inputs: the lone refused marker with exit
code 1 classifies as `Failure("connection refused")`, and exit code 0
classifies as the zero-exit `Error`. -/
theorem c1_probe_classifier_verdict_logic_witness :
    classify_probe_output "10.0.0.1" 80 "cmd" "Ncat: Connection refused.\n" 1 =
      .ok (false, some "connection refused") ∧
    classify_probe_output "10.0.0.1" 80 "cmd" "ok" 0 =
      .error (.runtimeError ("got zero exit code from running " ++ "cmd" ++ ": " ++ "ok")) := by
  constructor
  · exact ((c1_probe_classifier_verdict_logic "10.0.0.1" 80 "cmd"
      "Ncat: Connection refused.\n" 1).2 (by decide)).2.2.1.mpr
      ⟨by decide, by decide, by decide⟩
  · exact (c1_probe_classifier_verdict_logic "10.0.0.1" 80 "cmd" "ok" 0).1 rfl

/-- C10: the `connection timeout` failure verdict is produced by a
full-line match of either of the two distinct timeout marker lines, so the
classifier recognizes four fixed marker strings, two of which map to the
same timeout category. -/
theorem c10_fourth_timeout_marker
    (ip_addr : String) (port : Int) (command stdouterr_text : String)
    (return_code : Int) :
    (return_code ≠ 0 →
      (classify_probe_output ip_addr port command stdouterr_text return_code =
          .ok (false, some "connection timeout") ↔
        ((first_str_match_in_stdout_lines stdouterr_text
            "Ncat: Connection timed out." = true ∨
          first_str_match_in_stdout_lines stdouterr_text
            "Ncat: Operation timed out." = true) ∧
         first_str_match_in_stdout_lines stdouterr_text
           "Ncat: Idle timeout expired (5 ms)." = false ∧
         first_str_match_in_stdout_lines stdouterr_text
           "Ncat: Connection refused." = false))) ∧
    classify_probe_output ip_addr port command "Ncat: Connection timed out.\n" 1 =
      .ok (false, some "connection timeout") ∧
    classify_probe_output ip_addr port command "Ncat: Operation timed out.\n" 1 =
      .ok (false, some "connection timeout") ∧
    ("Ncat: Connection timed out." ≠ ("Ncat: Operation timed out." : String)) := by
  refine ⟨?_, rfl, rfl, by decide⟩
  intro h0
  have h0b : (return_code == 0) = false := by
    simpa using h0
  rcases Bool.eq_false_or_eq_true
      (first_str_match_in_stdout_lines stdouterr_text "Ncat: Connection timed out.")
    with ha | ha <;>
  rcases Bool.eq_false_or_eq_true
      (first_str_match_in_stdout_lines stdouterr_text "Ncat: Operation timed out.")
    with hb | hb <;>
  rcases Bool.eq_false_or_eq_true
      (first_str_match_in_stdout_lines stdouterr_text "Ncat: Connection refused.")
    with hr | hr <;>
  rcases Bool.eq_false_or_eq_true
      (first_str_match_in_stdout_lines stdouterr_text
        "Ncat: Idle timeout expired (5 ms).")
    with hs | hs <;>
  simp [classify_probe_output, h0b, ha, hb, hr, hs]

/-- Witness for C10: the `Operation timed out` marker alone, with exit
code 1, classifies as `Failure("connection timeout")` through the iff. -/
theorem c10_fourth_timeout_marker_witness :
    classify_probe_output "10.0.0.1" 80 "cmd" "Ncat: Operation timed out.\n" 1 =
      .ok (false, some "connection timeout") :=
  ((c10_fourth_timeout_marker "10.0.0.1" 80 "cmd" "Ncat: Operation timed out.\n" 1).1
    (by decide)).mpr ⟨Or.inr (by decide), by decide, by decide⟩

/-- C5: noise-line filtering.  Every output line containing the substring
`id: cannot find` is discarded before marker scanning; a noise line
interspersed at a line boundary does not change the cleaned line list, the
marker matches, or any `Success`/`Failure` classification; and an input
consisting only of such a noise line, with nonzero exit code, yields an
`Error` because no marker is found. -/
theorem c5_noise_line_filtering :
    (∀ (t : String) (line : List Char), line ∈ stdout_lines_without_noise t →
      listHasInfix noise_marker line = false) ∧
    (∀ (pre nl post : String),
      (pre = "" ∨ pre.data.getLast? = some '\n') → '\n' ∉ nl.data →
      listHasInfix noise_marker nl.data = true →
      (stdout_lines_without_noise (pre ++ nl ++ "\n" ++ post) =
        stdout_lines_without_noise (pre ++ post) ∧
      (∀ s, first_str_match_in_stdout_lines (pre ++ nl ++ "\n" ++ post) s =
        first_str_match_in_stdout_lines (pre ++ post) s) ∧
      (∀ (ip_addr : String) (port : Int) (command : String) (return_code : Int)
        (v : Bool × Option String),
        classify_probe_output ip_addr port command (pre ++ nl ++ "\n" ++ post)
          return_code = .ok v ↔
        classify_probe_output ip_addr port command (pre ++ post) return_code =
          .ok v))) ∧
    (∀ (ip_addr : String) (port : Int) (command : String),
      classify_probe_output ip_addr port command "id: cannot find this and that" 1 =
        .error (.runtimeError ("Unclear result from netcat to " ++ ip_addr ++
          " tcp/" ++ toString port ++ ":\n" ++ "id: cannot find this and that"))) := by
  refine ⟨?_, ?_, ?_⟩
  · intro t line h
    exact stdout_lines_no_noise h
  · intro pre nl post hpre hnl hnoise
    exact ⟨stdout_lines_insert_noise pre nl post hpre hnl hnoise,
      first_str_match_insert_noise pre nl post hpre hnl hnoise,
      fun ip port cmd rc v => classify_insert_noise_ok_iff pre nl post hpre hnl hnoise
        ip port cmd rc v⟩
  · intro ip_addr port command
    rfl

/-- Witness for C5: a concrete noise line inserted ahead of the reachable
marker line leaves the cleaned lines and the `Success` classification
unchanged. -/
theorem c5_noise_line_filtering_witness :
    stdout_lines_without_noise
      ("" ++ "id: cannot find this and that" ++ "\n" ++
        "Ncat: Idle timeout expired (5 ms).\n") =
      stdout_lines_without_noise ("" ++ "Ncat: Idle timeout expired (5 ms).\n") ∧
    (classify_probe_output "10.0.0.1" 80 "cmd"
        ("" ++ "id: cannot find this and that" ++ "\n" ++
          "Ncat: Idle timeout expired (5 ms).\n") 1 = .ok (true, none) ↔
      classify_probe_output "10.0.0.1" 80 "cmd"
        ("" ++ "Ncat: Idle timeout expired (5 ms).\n") 1 = .ok (true, none)) := by
  have h := c5_noise_line_filtering.2.1 "" "id: cannot find this and that"
    "Ncat: Idle timeout expired (5 ms).\n" (Or.inl rfl) (by decide) (by decide)
  exact ⟨h.1, h.2.2 "10.0.0.1" 80 "cmd" 1 (true, none)⟩

/-- C9: the local-subprocess bypass is taken exactly when the current
source host string equals the literal `127.0.0.1`: for that host only the
local-run collaborator matters, for every other host string (including
`localhost`) only the remote transport matters, and on the local path the
whole-attempt `time_limit` wrapper (whose expiry raises the script's
`TimeoutException`) is never applied. -/
theorem c9_local_bypass_trigger (env env2 : ProbeEnv)
    (host_string ip_addr : String) (port : Int) :
    (host_string = "127.0.0.1" → env.local_run = env2.local_run →
      verify_via_fabric_source_can_connect_to_port env host_string ip_addr port =
        verify_via_fabric_source_can_connect_to_port env2 host_string ip_addr port) ∧
    (host_string ≠ "127.0.0.1" → env.remote_run = env2.remote_run →
      verify_via_fabric_source_can_connect_to_port env host_string ip_addr port =
        verify_via_fabric_source_can_connect_to_port env2 host_string ip_addr port) ∧
    (host_string = "127.0.0.1" → ∀ msg,
      verify_via_fabric_source_can_connect_to_port env host_string ip_addr port ≠
        .error (.timeoutException msg)) := by
  refine ⟨?_, ?_, ?_⟩
  · intro hh hl
    subst hh
    unfold verify_via_fabric_source_can_connect_to_port
    simp [run_probe, hl]
  · intro hh hr
    have hb : (host_string == "127.0.0.1") = false := by
      simpa using hh
    unfold verify_via_fabric_source_can_connect_to_port
    simp [run_probe, hb, hr]
  · intro hh msg
    subst hh
    by_cases hip : (ip_addr.data.take 5 == "fe80:".data) = true
    · unfold verify_via_fabric_source_can_connect_to_port
      rw [if_pos hip]
      simp
    · unfold verify_via_fabric_source_can_connect_to_port
      rw [if_neg hip]
      rcases hcl : classify_probe_output ip_addr port (check_command ip_addr port)
          (env.local_run (check_command ip_addr port)).1
          (env.local_run (check_command ip_addr port)).2 with e | v
      · rcases classify_error_runtimeError hcl with ⟨m, rfl⟩
        simp [run_probe, hcl, Except.map]
      · simp [run_probe, hcl, Except.map]

/-- A sample environment whose local path returns exit code 1. -/
def probe_env_a : ProbeEnv :=
  ⟨fun _ => ("a-local", 1), fun _ => .output "remote" 1⟩

/-- Like `probe_env_a` but with a different local path. -/
def probe_env_b : ProbeEnv :=
  ⟨fun _ => ("b-local", 1), fun _ => .output "remote" 1⟩

/-- Like `probe_env_a` but with a different remote transport. -/
def probe_env_c : ProbeEnv :=
  ⟨fun _ => ("a-local", 1), fun _ => .raised (.networkError "x")⟩

/-- Witness for C9: `localhost` ignores the local path, `127.0.0.1`
ignores the remote transport and never yields the wrapper's
`TimeoutException`. -/
theorem c9_local_bypass_trigger_witness :
    verify_via_fabric_source_can_connect_to_port probe_env_a "localhost" "10.0.0.2" 80 =
      verify_via_fabric_source_can_connect_to_port probe_env_b "localhost" "10.0.0.2" 80 ∧
    verify_via_fabric_source_can_connect_to_port probe_env_a "127.0.0.1" "10.0.0.2" 80 =
      verify_via_fabric_source_can_connect_to_port probe_env_c "127.0.0.1" "10.0.0.2" 80 ∧
    (∀ msg, verify_via_fabric_source_can_connect_to_port
        probe_env_a "127.0.0.1" "10.0.0.2" 80 ≠ .error (.timeoutException msg)) := by
  refine ⟨?_, ?_, ?_⟩
  · exact (c9_local_bypass_trigger probe_env_a probe_env_b "localhost"
      "10.0.0.2" 80).2.1 (by decide) rfl
  · exact (c9_local_bypass_trigger probe_env_a probe_env_c "127.0.0.1"
      "10.0.0.2" 80).1 rfl rfl
  · exact (c9_local_bypass_trigger probe_env_a probe_env_a "127.0.0.1"
      "10.0.0.2" 80).2.2 rfl

/-- A sample environment: every probe returns empty output with exit 1. -/
def sample_probe_env : ProbeEnv :=
  ⟨fun _ => ("", 1), fun _ => .output "" 1⟩

/-- A sample timestamp oracle. -/
def sample_tm : Nat → Int := fun _ => 0

/-- Counterexample to C3 as stated: with a link-local destination the
per-source runner raises (an uncaught `TypeError` from unpacking the `None`
returned by the skip path) instead of returning one record per
destination. -/
theorem c3_runner_totality_counterexample :
    dests_access_test_via_fabric sample_probe_env "10.0.0.1" sample_tm
      [("fe80::1", 80)] = .error (.typeError "NoneType object is not iterable") := by
  rfl

/-- C3 (amended): for every source and every ordered destination list none
of whose hosts begins with `fe80:`, the per-source runner never raises —
every raised condition during a destination's probe (transport failure,
whole-attempt timeout, classifier contradiction, socket error) is caught
per-destination and converted to an `error` record — and it returns exactly
one `(dest_host, dest_port, result, detail, timestamp)` tuple per
destination, in the destinations' given order. -/
theorem c3_runner_totality_amended (env : ProbeEnv) (host_string : String)
    (tm : Nat → Int) (dests : List (String × Int))
    (hfe : ∀ d ∈ dests, (d.1.data.take 5 == "fe80:".data) = false) :
    ∃ l, dests_access_test_via_fabric env host_string tm dests = .ok l ∧
      l.map (fun r => (r.1, r.2.1)) = dests :=
  runner_total dests hfe env host_string tm

/-- Witness for C3 (amended) at two concrete destinations. -/
theorem c3_runner_totality_amended_witness :
    ∃ l, dests_access_test_via_fabric sample_probe_env "10.0.0.1" sample_tm
        [("10.0.0.2", 80), ("10.0.0.3", 443)] = .ok l ∧
      l.map (fun r => (r.1, r.2.1)) = [("10.0.0.2", 80), ("10.0.0.3", 443)] :=
  c3_runner_totality_amended sample_probe_env "10.0.0.1" sample_tm
    [("10.0.0.2", 80), ("10.0.0.3", 443)] (by decide)

/-- C4 (code bug): the link-local skip path returns Python `None` rather
than recording a `not tested` outcome; the caller's tuple unpacking of that
`None` raises a `TypeError` that is not among the caught exception classes,
so probing of the remaining destinations for the source is aborted (the
second destination below is never reported). -/
theorem c4_link_local_skip_bug :
    (∀ (env : ProbeEnv) (host_string : String),
      verify_via_fabric_source_can_connect_to_port env host_string "fe80::1" 80 =
        .ok none) ∧
    dests_access_test_via_fabric sample_probe_env "10.0.0.1" sample_tm
      [("fe80::1", 80), ("10.0.0.9", 443)] =
      .error (.typeError "NoneType object is not iterable") := by
  constructor
  · intro env hs
    unfold verify_via_fabric_source_can_connect_to_port
    rw [if_pos (by decide)]
  · rfl

/-- C8 (code bug): the detail recorded for a caught exception is
`"<ExceptionKind>: <message>"` with its embedded newline intact — the
source's `message.replace("\n", "\\n")` discards its result — so the
recorded string differs from its newline-escaped form.  The classifier's
`Unclear result` message always embeds a newline, exhibited here. -/
theorem c8_newline_escape_bug :
    dests_access_test_via_fabric sample_probe_env "10.0.0.1" sample_tm
      [("10.0.0.2", 80)] =
      .ok [("10.0.0.2", 80, "error",
        some "RuntimeError: Unclear result from netcat to 10.0.0.2 tcp/80:\n", 0)] ∧
    ('\n' ∈ ("RuntimeError: Unclear result from netcat to 10.0.0.2 tcp/80:\n" :
      String).data) ∧
    escape_newlines "RuntimeError: Unclear result from netcat to 10.0.0.2 tcp/80:\n" ≠
      "RuntimeError: Unclear result from netcat to 10.0.0.2 tcp/80:\n" := by
  refine ⟨?_, by decide, by decide⟩
  rfl

theorem infix_flatten_of_mem {α : Type} {x : List α} {L : List (List α)}
    (h : x ∈ L) : x <:+: L.flatten := by
  obtain ⟨s, t, rfl⟩ := List.append_of_mem h
  refine ⟨s.flatten, t.flatten, ?_⟩
  rw [List.flatten_append, List.flatten_cons]
  simp [List.append_assoc]

/-- C2: result-count invariant.  When fabric's result dict has exactly the
dispatched sources as keys and each non-`None` value is a completed
per-source runner output, the orchestrator produces exactly
`|sources| * |dests|` records, and a source whose dispatch yielded `None`
contributes exactly the `|dests|` synthetic error records (with the fixed
could-not-run message), appearing contiguously in the result set. -/
theorem c2_result_count_invariant
    (result_dict : List (String × Option (List (List PyVal))))
    (sources : List String) (dests : List (String × Int))
    (hkeys : result_dict.map Prod.fst = sources)
    (hvals : ∀ p ∈ result_dict, p.2 = none ∨
      ∃ (env : ProbeEnv) (tm : Nat → Int) (tl : List AccessTestResult),
        dests_access_test_via_fabric env p.1 tm dests = .ok tl ∧
        p.2 = some (tl.map access_test_result_to_py)) :
    ∃ res, dests_access_test_for_sources result_dict sources dests = .ok res ∧
      res.length = sources.length * dests.length ∧
      ∀ p ∈ result_dict, p.2 = none →
        (dests.map (fun d => none_source_record p.1 d.1 d.2)) <:+: res := by
  have hlen5 : ∀ p ∈ result_dict, ∀ trs, p.2 = some trs →
      ∀ tr ∈ trs, tr.length = 5 := by
    intro p hp trs htrs tr htr
    rcases hvals p hp with hnone | ⟨env, tm, tl, _, hsome⟩
    · rw [hnone] at htrs
      cases htrs
    · rw [hsome] at htrs
      injection htrs with htrs
      rw [← htrs] at htr
      rcases List.mem_map.mp htr with ⟨r, _, hr⟩
      rw [← hr]
      exact access_test_result_to_py_length r
  by_cases hs0 : sources = []
  · subst hs0
    have hdict : result_dict = [] := by
      simpa using congrArg List.length hkeys
    subst hdict
    exact ⟨[], rfl, by simp, by simp⟩
  · have hg : (sources.length == 0) = false := by
      simp [List.length_eq_zero, hs0]
    obtain ⟨res, hres⟩ := results_from_result_dict_ok_of_good (d := dests) hlen5
    have heq := results_from_result_dict_ok_eq hres
    refine ⟨res, ?_, ?_, ?_⟩
    · unfold dests_access_test_for_sources
      rw [hg]
      simpa using hres
    · have hcontrib : ∀ p ∈ result_dict,
          (Option.elim p.2
            (dests.map (fun d => none_source_record p.1 d.1 d.2))
            (fun trs => trs.map
              (fun tr => PyVal.int (-1) :: PyVal.str p.1 :: tr))).length =
          dests.length := by
        intro p hp
        rcases hvals p hp with hnone | ⟨env, tm, tl, hrun, hsome⟩
        · rw [hnone]
          simp [Option.elim]
        · rw [hsome]
          simp only [Option.elim, List.length_map]
          exact runner_ok_length hrun
      rw [heq, List.length_flatten, List.map_map]
      have hrepl : (result_dict.map (List.length ∘ (fun p =>
          Option.elim p.2
            (dests.map (fun d => none_source_record p.1 d.1 d.2))
            (fun trs => trs.map
              (fun tr => PyVal.int (-1) :: PyVal.str p.1 :: tr))))) =
          List.replicate result_dict.length dests.length := by
        have := List.eq_replicate_of_mem (a := dests.length)
          (l := result_dict.map (List.length ∘ (fun p =>
            Option.elim p.2
              (dests.map (fun d => none_source_record p.1 d.1 d.2))
              (fun trs => trs.map
                (fun tr => PyVal.int (-1) :: PyVal.str p.1 :: tr)))))
          (by
            intro b hb
            rcases List.mem_map.mp hb with ⟨p, hp, hpb⟩
            rw [← hpb]
            exact hcontrib p hp)
        rwa [List.length_map] at this
      rw [hrepl, List.sum_replicate, smul_eq_mul]
      have hsl : result_dict.length = sources.length := by
        rw [← hkeys, List.length_map]
      rw [hsl]
    · intro p hp hnone
      have hmem : (Option.elim p.2
          (dests.map (fun d => none_source_record p.1 d.1 d.2))
          (fun trs => trs.map (fun tr => PyVal.int (-1) :: PyVal.str p.1 :: tr))) ∈
          result_dict.map (fun p =>
            Option.elim p.2
              (dests.map (fun d => none_source_record p.1 d.1 d.2))
              (fun trs => trs.map
                (fun tr => PyVal.int (-1) :: PyVal.str p.1 :: tr))) :=
        List.mem_map_of_mem _ hp
      have hinf := infix_flatten_of_mem hmem
      rw [← heq] at hinf
      rwa [hnone] at hinf

/-- A sample fabric result dict: one source with a completed runner output,
one source whose dispatch yielded `None`. -/
def sample_result_dict : List (String × Option (List (List PyVal))) :=
  [("10.0.0.1", some [[PyVal.str "10.0.0.2", PyVal.int 80, PyVal.str "error",
      PyVal.str "RuntimeError: Unclear result from netcat to 10.0.0.2 tcp/80:\n",
      PyVal.int 0]]),
   ("10.0.0.3", none)]

/-- Witness for C2: two sources (one completed, one `None`), one
destination, two records. -/
theorem c2_result_count_invariant_witness :
    ∃ res, dests_access_test_for_sources sample_result_dict
        ["10.0.0.1", "10.0.0.3"] [("10.0.0.2", 80)] = .ok res ∧
      res.length = ["10.0.0.1", "10.0.0.3"].length * [("10.0.0.2", 80)].length ∧
      ∀ p ∈ sample_result_dict, p.2 = none →
        ([("10.0.0.2", 80)].map (fun d => none_source_record p.1 d.1 d.2)) <:+: res := by
  apply c2_result_count_invariant
  · rfl
  · intro p hp
    have hp2 : p = ("10.0.0.1", some [[PyVal.str "10.0.0.2", PyVal.int 80,
        PyVal.str "error",
        PyVal.str "RuntimeError: Unclear result from netcat to 10.0.0.2 tcp/80:\n",
        PyVal.int 0]]) ∨
        p = ("10.0.0.3", (none : Option (List (List PyVal)))) := by
      simpa [sample_result_dict] using hp
    rcases hp2 with rfl | rfl
    · right
      exact ⟨sample_probe_env, sample_tm,
        [("10.0.0.2", 80, "error",
          some "RuntimeError: Unclear result from netcat to 10.0.0.2 tcp/80:\n", 0)],
        rfl, rfl⟩
    · exact Or.inl rfl

/-- C6: malformed-record fatality.  With a nonempty source list, an entry
of some source's result list that does not have exactly five fields makes
the whole run abort with the nonzero process exit code 1; when every entry
has exactly five fields the run succeeds and each source's entries are
flattened into records prefixed with the constant subprocess id `-1`. -/
theorem c6_malformed_record_fatal
    (result_dict : List (String × Option (List (List PyVal))))
    (sources : List String) (dests : List (String × Int))
    (h0 : sources.length ≠ 0) :
    (∀ (source_ip : String) (trs : List (List PyVal)) (tr : List PyVal),
      (source_ip, some trs) ∈ result_dict → tr ∈ trs → tr.length ≠ 5 →
      dests_access_test_for_sources result_dict sources dests = .error 1) ∧
    ((∀ p ∈ result_dict, ∀ trs, p.2 = some trs → ∀ tr ∈ trs, tr.length = 5) →
      ∃ res, dests_access_test_for_sources result_dict sources dests = .ok res ∧
        ∀ (source_ip : String) (trs : List (List PyVal)),
          (source_ip, some trs) ∈ result_dict →
          (trs.map (fun tr => PyVal.int (-1) :: PyVal.str source_ip :: tr)) <:+:
            res) := by
  have hg : (sources.length == 0) = false := by
    simpa using h0
  constructor
  · intro source_ip trs tr hmem htr hlen
    unfold dests_access_test_for_sources
    rw [hg]
    simp only [Bool.false_eq_true, if_false]
    exact results_from_result_dict_error_of_malformed hmem htr hlen
  · intro hgood
    obtain ⟨res, hres⟩ := results_from_result_dict_ok_of_good (d := dests) hgood
    refine ⟨res, ?_, ?_⟩
    · unfold dests_access_test_for_sources
      rw [hg]
      simpa using hres
    · intro source_ip trs hmem
      have heq := results_from_result_dict_ok_eq hres
      have hcmem : (Option.elim (some trs)
          (dests.map (fun d => none_source_record source_ip d.1 d.2))
          (fun trs2 => trs2.map
            (fun tr => PyVal.int (-1) :: PyVal.str source_ip :: tr))) ∈
          result_dict.map (fun p =>
            Option.elim p.2
              (dests.map (fun d => none_source_record p.1 d.1 d.2))
              (fun trs2 => trs2.map
                (fun tr => PyVal.int (-1) :: PyVal.str p.1 :: tr))) :=
        List.mem_map_of_mem _ hmem
    
      have hinf := infix_flatten_of_mem hcmem
      rw [← heq] at hinf
      exact hinf

/-- Witness for C6: a four-field entry aborts the run with exit 1; a
five-field entry is accepted and flattened behind the `-1` prefix. -/
theorem c6_malformed_record_fatal_witness :
    dests_access_test_for_sources [("10.0.0.1", some [[PyVal.str "x"]])]
      ["10.0.0.1"] [] = .error 1 ∧
    (∃ res, dests_access_test_for_sources
        [("10.0.0.1", some [[PyVal.str "10.0.0.2", PyVal.int 80,
          PyVal.str "success", PyVal.none_, PyVal.int 0]])]
        ["10.0.0.1"] [] = .ok res ∧
      ∀ (source_ip : String) (trs : List (List PyVal)),
        (source_ip, some trs) ∈ [("10.0.0.1", some [[PyVal.str "10.0.0.2",
          PyVal.int 80, PyVal.str "success", PyVal.none_, PyVal.int 0]])] →
        (trs.map (fun tr => PyVal.int (-1) :: PyVal.str source_ip :: tr)) <:+: res) := by
  constructor
  · exact (c6_malformed_record_fatal [("10.0.0.1", some [[PyVal.str "x"]])]
      ["10.0.0.1"] [] (by decide)).1 "10.0.0.1" [[PyVal.str "x"]] [PyVal.str "x"]
      (by simp) (by simp) (by decide)
  · refine (c6_malformed_record_fatal _ ["10.0.0.1"] [] (by decide)).2 ?_
    intro p hp trs htrs tr htr
    simp only [List.mem_singleton] at hp
    subst hp
    injection htrs with htrs
    rw [← htrs] at htr
    simp only [List.mem_singleton] at htr
    subst htr
    rfl

/-- C7: ledger round-trip.  Committing appends (never rewrites) every
dispatched source to the ledger content, one per line; and a second run
over the same sources file against the committed ledger dispatches zero
sources — every source is filtered out by membership in the ledger set.
The hypothesis states that the prior ledger content is empty or
newline-terminated, which holds for every file this script writes. -/
theorem c7_ledger_round_trip (sources_content ledger_content : String)
    (hc : ledger_content = "" ∨ ledger_content.data.getLast? = some '\n') :
    already_tested_commit ledger_content
        (sources_to_use sources_content (already_tested_sources ledger_content)) =
      ledger_content ++ joinStrings
        ((sources_to_use sources_content
          (already_tested_sources ledger_content)).map (fun s => s ++ "\n")) ∧
    sources_to_use sources_content
      (already_tested_sources (already_tested_commit ledger_content
        (sources_to_use sources_content (already_tested_sources ledger_content)))) =
      [] := by
  refine ⟨rfl, ?_⟩
  rw [already_tested_sources_commit hc
    (fun s hs => mem_sources_to_use hs)]
  exact sources_to_use_append_self sources_content
    (already_tested_sources ledger_content)

/-- Witness for C7: a two-source file against an empty ledger commits both
sources and dispatches none of them on the second run. -/
theorem c7_ledger_round_trip_witness :
    already_tested_commit ""
        (sources_to_use "10.0.0.1\n10.0.0.2\n" (already_tested_sources "")) =
      "" ++ joinStrings
        ((sources_to_use "10.0.0.1\n10.0.0.2\n"
          (already_tested_sources "")).map (fun s => s ++ "\n")) ∧
    sources_to_use "10.0.0.1\n10.0.0.2\n"
      (already_tested_sources (already_tested_commit ""
        (sources_to_use "10.0.0.1\n10.0.0.2\n" (already_tested_sources "")))) =
      [] :=
  c7_ledger_round_trip "10.0.0.1\n10.0.0.2\n" "" (Or.inl rfl)
